import Mathlib

/-!
Verification of the HandController repository's gesture-classification and
control-mapping core against its natural-language specification.

Shallow embedding of:
  * `hand_tracker.py`   — gesture classifier (`_is_fist`, `_is_open_hand`,
    `_is_pinch`, `_get_hand_position`), handedness resolution
    (`_determine_hand_type`, the tag inversion in `detect_gestures`) and the
    short-observation guard;
  * `test_mixxx_hand_control.py` — the per-frame, per-deck control mapper in
    `main`'s loop (play/pause rising-edge trigger, pinch three-state machine
    with its 200 ms throttle);
  * `mixxx_controller.py`  — `send_key`, `handle_play_pause`, `get_status`,
    and the single shared `is_playing` flag.

Conventions: pixel coordinates are `Int` (`process_frame` converts landmark
positions with `int(...)`); the clock is `Rat` in seconds (the code reads
`time.time()` and compares against the float literal `0.2`, i.e. 200 ms);
`_is_pinch`'s comparison `sqrt(dx^2+dy^2) < 30` is embedded in the exact
integer form `dx^2+dy^2 < 900`, which is equivalent by strict monotonicity of
the square root on integer inputs (`pinch_threshold` proves the bridge to the
real Euclidean distance).
-/

/-- A 2D landmark point in pixel coordinates, as built by
`HandTracker.process_frame` (`x = int(landmark.x * w)`, `y = int(landmark.y * h)`). -/
structure Point where
  x : ℤ
  y : ℤ
  deriving DecidableEq

/-- `landmarks[i]` access. The Python code indexes the landmark list directly;
its callers guarantee at least 21 points (the guard in `detect_gestures`), so
the default value is never observed on guarded paths. -/
def pt (lms : List Point) (i : ℕ) : Point :=
  lms.getD i ⟨0, 0⟩

/-- Handedness tag attached by `process_frame` as the final list element:
`"left"`, `"right"`, or `"unknown"`. -/
inductive HandTag where
  | left
  | right
  | unknown
  deriving DecidableEq

/-- One hand observation: the landmark coordinate list (normally 21 points)
plus the handedness tag that `process_frame` appends as the 22nd element.
The Python guard `len(landmarks) < 22` on the combined list is exactly
`points.length < 21` here. -/
structure HandObservation where
  points : List Point
  tag : HandTag

/-- Deck identity: the `"left_hand"` / `"right_hand"` keys of the gestures
dictionary, also used for the two decks in the main loop. -/
inductive Deck where
  | left
  | right
  deriving DecidableEq

/-- Finger tip indices checked by `_is_fist` / `_is_open_hand`. -/
def finger_tips : List ℕ := [8, 12, 16, 20]

/-- Middle-joint indices paired with `finger_tips`. -/
def finger_mids : List ℕ := [6, 10, 14, 18]

/-- `HandTracker._is_fist`: count tips whose y is strictly greater than the
paired middle joint's y ("tip below middle joint" in image coordinates);
true iff the count is at least 4. -/
def _is_fist (lms : List Point) : Bool :=
  decide (4 ≤ (finger_tips.zip finger_mids).countP
    (fun pr => decide ((pt lms pr.2).y < (pt lms pr.1).y)))

/-- `HandTracker._is_open_hand`: count tips whose y is strictly less than the
paired middle joint's y; true iff the count is at least 4. -/
def _is_open_hand (lms : List Point) : Bool :=
  decide (4 ≤ (finger_tips.zip finger_mids).countP
    (fun pr => decide ((pt lms pr.1).y < (pt lms pr.2).y)))

/-- `HandTracker._is_pinch`: the source computes
`np.sqrt((tx-ix)**2 + (ty-iy)**2) < 30` on integer pixel coordinates; for
integers, `sqrt(d) < 30` holds exactly when `d < 900`, so the comparison is
embedded in that exact integer form. -/
def _is_pinch (lms : List Point) : Bool :=
  decide (((pt lms 4).x - (pt lms 8).x) ^ 2 + ((pt lms 4).y - (pt lms 8).y) ^ 2 < 900)

/-- `HandTracker._get_hand_position`: the wrist point (index 0). -/
def _get_hand_position (lms : List Point) : Point :=
  pt lms 0

/-- `HandTracker._determine_hand_type`: geometric handedness fallback.
Palm-center x is the mean of the x coordinates of the four finger bases
(indices 5, 9, 13, 17); thumb tip (index 4) strictly left of that mean gives
`"right"`, otherwise `"left"`. -/
def _determine_hand_type (lms : List Point) : Deck :=
  let palm_center_x : ℚ :=
    (((pt lms 5).x + (pt lms 9).x + (pt lms 13).x + (pt lms 17).x : ℤ) : ℚ) / 4
  if ((pt lms 4).x : ℚ) < palm_center_x then Deck.right else Deck.left

/-- Per-hand gesture snapshot: the dictionary value built in
`detect_gestures`. -/
structure Gesture where
  fist : Bool
  open_hand : Bool
  pinch : Bool
  hand_position : Point
  deriving DecidableEq

/-- The gesture dictionary entry for one hand. -/
def classify (lms : List Point) : Gesture :=
  { fist := _is_fist lms
    open_hand := _is_open_hand lms
    pinch := _is_pinch lms
    hand_position := _get_hand_position lms }

/-- Deck resolution for one observation that passed the length guard: tag
`"left"`/`"right"` is inverted (`detect_gestures` swaps them before building
`hand_id`), otherwise `_determine_hand_type` decides geometrically. -/
def resolveDeck (obs : HandObservation) : Deck :=
  match obs.tag with
  | HandTag.left => Deck.right
  | HandTag.right => Deck.left
  | HandTag.unknown => _determine_hand_type obs.points

/-- Python-dict assignment `gestures[hand_id] = v`: replace in place when the
key is present, otherwise append (insertion order preserved). -/
def insertEntry (m : List (Deck × Gesture)) (k : Deck) (v : Gesture) :
    List (Deck × Gesture) :=
  if m.any (fun e => decide (e.1 = k)) then
    m.map (fun e => if e.1 = k then (k, v) else e)
  else
    m ++ [(k, v)]

/-- Body of the `for landmarks in landmarks_list` loop in `detect_gestures`:
observations with fewer than 21 coordinate points are skipped, the rest are
resolved to a deck and classified. -/
def detectStep (m : List (Deck × Gesture)) (obs : HandObservation) :
    List (Deck × Gesture) :=
  if obs.points.length < 21 then m
  else insertEntry m (resolveDeck obs) (classify obs.points)

/-- `HandTracker.detect_gestures`: fold the loop body over the observation
list, starting from the empty dictionary. The result models the Python dict
as an association list in insertion order. -/
def detect_gestures (obsList : List HandObservation) : List (Deck × Gesture) :=
  obsList.foldl detectStep []

/-- Kind of control event the main loop emits to the Mixxx controller. -/
inductive ControlAction where
  | playPause
  | crossfaderNudge
  deriving DecidableEq

/-- A control event: which deck it concerns and what it does. -/
structure ControlEvent where
  deck : Deck
  action : ControlAction
  deriving DecidableEq

/-- The key symbol actually sent for each event: `handle_play_pause` looks up
`keyboard_mappings` (`play_pause_left = d`, `play_pause_right = l`) and the
pinch branches call `send_key` with the literals `g` (left) and `h` (right). -/
def eventKey : ControlEvent → String
  | ⟨Deck.left, ControlAction.playPause⟩ => "d"
  | ⟨Deck.right, ControlAction.playPause⟩ => "l"
  | ⟨Deck.left, ControlAction.crossfaderNudge⟩ => "g"
  | ⟨Deck.right, ControlAction.crossfaderNudge⟩ => "h"

/-- Per-deck control state carried across frames by `main`'s loop:
`previous_play_pause_*`, `*_pinch_active`, `last_*_pinch_time`. -/
structure DeckState where
  previousFist : Bool
  pinchActive : Bool
  lastPinchTime : ℚ
  deriving DecidableEq

/-- The pinch/crossfader branch chain of the main loop, for one deck:
`if pinch and not active / elif pinch and active / elif not pinch and active`.
The clock is in seconds, so the `0.2` throttle of the source is `1/5`. -/
def pinchStep (d : Deck) (pinch_active : Bool) (last_pinch_time : ℚ)
    (pinch : Bool) (now : ℚ) : List ControlEvent × Bool × ℚ :=
  if pinch && !pinch_active then
    ([⟨d, ControlAction.crossfaderNudge⟩], true, now)
  else if pinch && pinch_active then
    if now - last_pinch_time > 1/5 then
      ([⟨d, ControlAction.crossfaderNudge⟩], true, now)
    else
      ([], pinch_active, last_pinch_time)
  else if !pinch && pinch_active then
    ([], false, last_pinch_time)
  else
    ([], pinch_active, last_pinch_time)

/-- One deck's whole per-frame handling in the main loop, given that a
gesture snapshot was produced for it: the fist rising-edge play/pause trigger
(flipping the controller's shared `is_playing` via `handle_play_pause`),
the unconditional `previous_fist := fist` update, then the pinch machine.
Returns (events in emission order, new deck state, new `is_playing`). -/
def deckStep (d : Deck) (s : DeckState) (playing : Bool) (g : Gesture)
    (now : ℚ) : List ControlEvent × DeckState × Bool :=
  let trigger := g.fist && !s.previousFist
  let ppEvents : List ControlEvent := if trigger then [⟨d, ControlAction.playPause⟩] else []
  let playing2 := if trigger then !playing else playing
  let pr := pinchStep d s.pinchActive s.lastPinchTime g.pinch now
  (ppEvents ++ pr.1, ⟨g.fist, pr.2.1, pr.2.2⟩, playing2)

/-- The whole mutable state of the main loop that the claims concern: both
decks' control state plus the controller's single `is_playing` flag. -/
structure SysState where
  leftDeck : DeckState
  rightDeck : DeckState
  mixxxPlaying : Bool
  deriving DecidableEq

/-- Initial state at session start: all flags false, times zero
(`previous_play_pause_* = False`, `*_pinch_active = False`,
`last_*_pinch_time = 0`, `MixxxController.is_playing = False`). -/
def initSys : SysState :=
  ⟨⟨false, false, 0⟩, ⟨false, false, 0⟩, false⟩

/-- Select one deck's control state. -/
def deckOf (st : SysState) : Deck → DeckState
  | Deck.left => st.leftDeck
  | Deck.right => st.rightDeck

/-- Process one entry of the gestures dictionary (one iteration of the
`for hand_id, hand_gestures in gestures.items()` loop). -/
def applyDeck (st : SysState) (d : Deck) (g : Gesture) (now : ℚ) :
    List ControlEvent × SysState :=
  let r := deckStep d (deckOf st d) st.mixxxPlaying g now
  match d with
  | Deck.left => (r.1, ⟨r.2.1, st.rightDeck, r.2.2⟩)
  | Deck.right => (r.1, ⟨st.leftDeck, r.2.1, r.2.2⟩)

/-- One frame of the main loop: iterate the gestures dictionary in insertion
order, threading the state and concatenating each deck's events. -/
def frameStep (st : SysState) (gs : List (Deck × Gesture)) (now : ℚ) :
    List ControlEvent × SysState :=
  match gs with
  | [] => ([], st)
  | (d, g) :: rest =>
      let r := applyDeck st d g now
      let r2 := frameStep r.2 rest now
      (r.1 ++ r2.1, r2.2)

/-- Run a list of frames (gesture dictionary plus clock reading each),
collecting each frame's emitted event list. -/
def runEvents (st : SysState) : List (List (Deck × Gesture) × ℚ) → List (List ControlEvent)
  | [] => []
  | (gs, now) :: rest =>
      let r := frameStep st gs now
      r.1 :: runEvents r.2 rest

/-- Run a list of frames, returning the final state. -/
def runState (st : SysState) : List (List (Deck × Gesture) × ℚ) → SysState
  | [] => st
  | (gs, now) :: rest => runState (frameStep st gs now).2 rest

/-- The snapshot a frame's gesture dictionary assigns to deck `d`, taking the
last entry when the deck occurs more than once (dict overwrite). -/
def lastEntry (d : Deck) : List (Deck × Gesture) → Option Gesture
  | [] => none
  | (d2, g) :: rest =>
      match lastEntry d rest with
      | some g2 => some g2
      | none => if d2 = d then some g else none

/-- The most recent snapshot produced for deck `d` across a frame list. -/
def lastDeckSnap (d : Deck) : List (List (Deck × Gesture) × ℚ) → Option Gesture
  | [] => none
  | (gs, _) :: rest =>
      match lastDeckSnap d rest with
      | some g => some g
      | none => lastEntry d gs

/-- The claim-C4 ordering property "all left-deck events before all
right-deck events": the event list equals its stable partition by deck. -/
def leftThenRight (evs : List ControlEvent) : Prop :=
  evs = evs.filter (fun e => decide (e.deck = Deck.left))
      ++ evs.filter (fun e => decide (e.deck = Deck.right))

instance instDecLeftThenRight : DecidablePred leftThenRight := fun evs => by
  unfold leftThenRight
  infer_instance

/-- Within-deck ordering "play/pause before pinch-nudge": the event list
equals its stable partition by action. -/
def ppThenNudge (evs : List ControlEvent) : Prop :=
  evs = evs.filter (fun e => decide (e.action = ControlAction.playPause))
      ++ evs.filter (fun e => decide (e.action = ControlAction.crossfaderNudge))

instance instDecPpThenNudge : DecidablePred ppThenNudge := fun evs => by
  unfold ppThenNudge
  infer_instance

/-- `MixxxController.__init__`'s relevant fields. -/
structure MixxxState where
  is_connected : Bool
  current_volume_left : ℚ
  current_volume_right : ℚ
  is_playing : Bool
  simulation_mode : Bool
  deriving DecidableEq

/-- Controller state right after `MixxxController.__init__`. -/
def initController : MixxxState :=
  ⟨true, 1/2, 1/2, false, false⟩

/-- `MixxxController.send_key`: wraps the key injection in
`try/except Exception`, printing in both branches; whether the injection
succeeds (`injectionOk`) or raises, the method returns normally and the
controller state is unchanged. -/
def send_key (st : MixxxState) (injectionOk : Bool) : MixxxState :=
  match injectionOk with
  | true => st
  | false => st

/-- `MixxxController.handle_play_pause`: when triggered, send the deck's
mapped key and flip the single `is_playing` flag (there is one flag for both
decks; the deck argument only selects the key symbol). -/
def handle_play_pause (st : MixxxState) (triggered : Bool) (_deck : Deck)
    (injectionOk : Bool) : MixxxState :=
  if triggered then
    let st1 := send_key st injectionOk
    { st1 with is_playing := !st1.is_playing }
  else
    st

/-- The status dictionary returned by `MixxxController.get_status`. -/
structure MixxxStatus where
  connected : Bool
  playing : Bool
  volume_left : ℚ
  volume_right : ℚ
  simulation_mode : Bool
  deriving DecidableEq

/-- `MixxxController.get_status`. -/
def get_status (st : MixxxState) : MixxxStatus :=
  ⟨st.is_connected, st.is_playing, st.current_volume_left,
    st.current_volume_right, st.simulation_mode⟩

/-! ### Concrete landmark data for witnesses and counterexamples -/

/-- 21 identical points, the base of the mock hands in `test_hand_tracking.py`. -/
def flat21 : List Point := List.replicate 21 ⟨100, 100⟩

/-- Mock fist: all four checked tips strictly below (larger y than) their
middle joints, mirroring the fist mock of `test_gesture_detection`. -/
def fistPoints : List Point :=
  (((flat21.set 8 ⟨100, 150⟩).set 12 ⟨100, 160⟩).set 16 ⟨100, 170⟩).set 20 ⟨100, 180⟩

/-- Mock open hand: all four checked tips strictly above their middle joints. -/
def openPoints : List Point :=
  (((flat21.set 8 ⟨100, 50⟩).set 12 ⟨100, 40⟩).set 16 ⟨100, 30⟩).set 20 ⟨100, 20⟩

/-- Hand with unknown tag geometry: thumb tip x = 50, all four finger bases
at x = 100, so the thumb is strictly left of the palm-center mean. -/
def thumbLeftPoints : List Point := flat21.set 4 ⟨50, 100⟩

/-- Thumb tip and index tip exactly 30 pixels apart on one axis. -/
def pinchAt30 : List Point := (flat21.set 4 ⟨0, 0⟩).set 8 ⟨30, 0⟩

/-- Thumb tip and index tip 29 pixels apart. -/
def pinchAt29 : List Point := (flat21.set 4 ⟨0, 0⟩).set 8 ⟨29, 0⟩

/-! ### Gesture classifier claims -/

/-- `_is_fist` in arithmetic normal form. -/
lemma is_fist_iff (lms : List Point) :
    _is_fist lms = true ↔
      ((pt lms 6).y < (pt lms 8).y ∧ (pt lms 10).y < (pt lms 12).y ∧
        (pt lms 14).y < (pt lms 16).y ∧ (pt lms 18).y < (pt lms 20).y) := by
  simp only [_is_fist, finger_tips, finger_mids, List.zip_cons_cons, List.zip_nil_right,
    List.countP_cons, List.countP_nil, decide_eq_true_eq]
  split_ifs <;> omega

/-- `_is_open_hand` in arithmetic normal form. -/
lemma is_open_hand_iff (lms : List Point) :
    _is_open_hand lms = true ↔
      ((pt lms 8).y < (pt lms 6).y ∧ (pt lms 12).y < (pt lms 10).y ∧
        (pt lms 16).y < (pt lms 14).y ∧ (pt lms 20).y < (pt lms 18).y) := by
  simp only [_is_open_hand, finger_tips, finger_mids, List.zip_cons_cons, List.zip_nil_right,
    List.countP_cons, List.countP_nil, decide_eq_true_eq]
  split_ifs <;> omega

/-- Claim C6: on a 21-point hand, all four checked tips strictly below their
middle joints force `fist = true`; all four strictly above force
`open_hand = true`; the two predicates are never simultaneously true; and a
tip level with its middle joint (equal y) defeats both predicates. -/
theorem fist_open_hand_classification (lms : List Point) (_hlen : lms.length = 21) :
    ((pt lms 6).y < (pt lms 8).y ∧ (pt lms 10).y < (pt lms 12).y ∧
      (pt lms 14).y < (pt lms 16).y ∧ (pt lms 18).y < (pt lms 20).y →
      _is_fist lms = true)
  ∧ ((pt lms 8).y < (pt lms 6).y ∧ (pt lms 12).y < (pt lms 10).y ∧
      (pt lms 16).y < (pt lms 14).y ∧ (pt lms 20).y < (pt lms 18).y →
      _is_open_hand lms = true)
  ∧ ¬(_is_fist lms = true ∧ _is_open_hand lms = true)
  ∧ ((pt lms 8).y = (pt lms 6).y ∨ (pt lms 12).y = (pt lms 10).y ∨
      (pt lms 16).y = (pt lms 14).y ∨ (pt lms 20).y = (pt lms 18).y →
      _is_fist lms = false ∧ _is_open_hand lms = false) := by
  refine ⟨fun h => (is_fist_iff lms).mpr h, fun h => (is_open_hand_iff lms).mpr h, ?_, ?_⟩
  · rintro ⟨hf, ho⟩
    have h1 := (is_fist_iff lms).mp hf
    have h2 := (is_open_hand_iff lms).mp ho
    omega
  · intro h
    constructor
    · cases hb : _is_fist lms with
      | false => rfl
      | true => exact absurd ((is_fist_iff lms).mp hb) (by omega)
    · cases hb : _is_open_hand lms with
      | false => rfl
      | true => exact absurd ((is_open_hand_iff lms).mp hb) (by omega)

/-- Witness for C6 at the mock fist hand: the all-tips-below hypothesis holds
there and the theorem yields `fist = true`. -/
theorem fist_open_hand_classification_witness : _is_fist fistPoints = true :=
  (fist_open_hand_classification fistPoints (by decide)).1 (by decide)

/-- Claim C7: `pinch` holds exactly when the Euclidean distance between thumb
tip (landmark 4) and index tip (landmark 8) is strictly below 30.0 pixels;
tips exactly 30 pixels apart give `pinch = false`, 29 pixels give `true`. -/
theorem pinch_threshold :
    (∀ lms : List Point,
      _is_pinch lms = true ↔
        Real.sqrt ((((pt lms 4).x - (pt lms 8).x : ℤ) : ℝ) ^ 2
          + (((pt lms 4).y - (pt lms 8).y : ℤ) : ℝ) ^ 2) < 30)
  ∧ _is_pinch pinchAt30 = false
  ∧ _is_pinch pinchAt29 = true := by
  refine ⟨fun lms => ?_, by decide, by decide⟩
  rw [Real.sqrt_lt' (by norm_num : (0:ℝ) < 30)]
  simp only [_is_pinch, decide_eq_true_eq]
  have hcast : ((((pt lms 4).x - (pt lms 8).x : ℤ) : ℝ) ^ 2
      + (((pt lms 4).y - (pt lms 8).y : ℤ) : ℝ) ^ 2)
      = ((((pt lms 4).x - (pt lms 8).x) ^ 2 + ((pt lms 4).y - (pt lms 8).y) ^ 2 : ℤ) : ℝ) := by
    push_cast
    ring
  rw [hcast, show ((30:ℝ) ^ 2) = ((900:ℤ) : ℝ) by norm_num, Int.cast_lt]

/-! ### Hand resolution and the length guard -/

/-- A fist-shaped observation tagged `"left"` (resolves to the right deck). -/
def obsTagLeft : HandObservation := ⟨fistPoints, HandTag.left⟩

/-- A fist-shaped observation tagged `"right"` (resolves to the left deck). -/
def obsTagRight : HandObservation := ⟨fistPoints, HandTag.right⟩

/-- An observation with a single landmark point: fails the 21-point guard. -/
def shortObs : HandObservation := ⟨[⟨1, 2⟩], HandTag.left⟩

/-- Claim C5: an observation with at least 21 points tagged `"left"` resolves
to deck `right_hand`, one tagged `"right"` to `left_hand`; with an unknown tag
the deck is geometric — `right_hand` exactly when the thumb-tip x (landmark 4)
is strictly less than the mean x of the finger bases (landmarks 5, 9, 13, 17). -/
theorem hand_resolution (points : List Point) (tag : HandTag)
    (hlen : 21 ≤ points.length) :
    (tag = HandTag.left →
      detect_gestures [⟨points, tag⟩] = [(Deck.right, classify points)])
  ∧ (tag = HandTag.right →
      detect_gestures [⟨points, tag⟩] = [(Deck.left, classify points)])
  ∧ (tag = HandTag.unknown →
      detect_gestures [⟨points, tag⟩] =
        [((if ((pt points 4).x : ℚ) <
              (((pt points 5).x + (pt points 9).x + (pt points 13).x
                + (pt points 17).x : ℤ) : ℚ) / 4
            then Deck.right else Deck.left), classify points)]) := by
  have hguard : ¬ (points.length < 21) := by omega
  refine ⟨?_, ?_, ?_⟩ <;> rintro rfl <;>
    simp [detect_gestures, detectStep, insertEntry, resolveDeck,
      _determine_hand_type, hguard]

/-- Witness for C5: the unknown-tag observation with the thumb left of the
palm-center mean resolves to the right deck. -/
theorem hand_resolution_witness :
    detect_gestures [⟨thumbLeftPoints, HandTag.unknown⟩]
      = [(Deck.right, classify thumbLeftPoints)] := by
  have h := (hand_resolution thumbLeftPoints HandTag.unknown (by decide)).2.2 rfl
  have h4 : pt thumbLeftPoints 4 = ⟨50, 100⟩ := by decide
  have h5 : pt thumbLeftPoints 5 = ⟨100, 100⟩ := by decide
  have h9 : pt thumbLeftPoints 9 = ⟨100, 100⟩ := by decide
  have h13 : pt thumbLeftPoints 13 = ⟨100, 100⟩ := by decide
  have h17 : pt thumbLeftPoints 17 = ⟨100, 100⟩ := by decide
  rw [h, h4, h5, h9, h13, h17]
  norm_num

/-- Claim C8: an observation with fewer than 21 landmark points is silently
skipped by `detect_gestures` — the gesture dictionary is exactly what the
remaining observations produce — and consequently the frame's deck-state
update is unaffected by the dropped observation. -/
theorem short_observation_dropped (xs ys : List HandObservation)
    (obs : HandObservation) (st : SysState) (now : ℚ)
    (hshort : obs.points.length < 21) :
    detect_gestures (xs ++ obs :: ys) = detect_gestures (xs ++ ys)
  ∧ frameStep st (detect_gestures (xs ++ obs :: ys)) now
      = frameStep st (detect_gestures (xs ++ ys)) now := by
  have h1 : detect_gestures (xs ++ obs :: ys) = detect_gestures (xs ++ ys) := by
    unfold detect_gestures
    rw [List.foldl_append, List.foldl_append, List.foldl_cons]
    simp [detectStep, hshort]
  exact ⟨h1, by rw [h1]⟩

/-- Witness for C8: a one-point observation in front of a well-formed one
changes nothing about the produced gesture dictionary. -/
theorem short_observation_dropped_witness :
    detect_gestures ([] ++ shortObs :: [obsTagLeft])
      = detect_gestures ([] ++ [obsTagLeft]) :=
  (short_observation_dropped [] [obsTagLeft] shortObs initSys 0 (by decide)).1

/-! ### Control mapper claims -/

/-- Claim C2: the pinch/crossfader logic is the three-state machine of the
spec. Rising edge: one nudge immediately, `pinch_active := true`,
`last_pinch_emit_time := now`. Held: a nudge exactly when
`now - last_pinch_emit_time` strictly exceeds 200 ms (1/5 s), updating the
emit time only on emission. Falling edge: clear `pinch_active`, no event.
Both false: no change, no event. -/
theorem pinch_crossfader_state_machine (d : Deck) (t now : ℚ) :
    pinchStep d false t true now = ([⟨d, ControlAction.crossfaderNudge⟩], true, now)
  ∧ pinchStep d true t true now =
      (if now - t > 1/5 then ([⟨d, ControlAction.crossfaderNudge⟩], true, now)
       else ([], true, t))
  ∧ pinchStep d true t false now = ([], false, t)
  ∧ pinchStep d false t false now = ([], false, t) := by
  refine ⟨?_, ?_, ?_, ?_⟩ <;> simp [pinchStep]

/-- The pinch branch never emits a play/pause event. -/
lemma playPause_not_mem_pinchStep (d d2 : Deck) (a : Bool) (t : ℚ)
    (p : Bool) (now : ℚ) :
    (⟨d2, ControlAction.playPause⟩ : ControlEvent) ∉ (pinchStep d a t p now).1 := by
  unfold pinchStep
  split_ifs <;> simp

/-- The five-frame fist sequence of the spec, on the left deck:
fist = [false, true, true, true, false], pinch never held. -/
def fistFrame (b : Bool) : List (Deck × Gesture) × ℚ :=
  ([(Deck.left, ⟨b, false, false, ⟨0, 0⟩⟩)], 0)

/-- Frames carrying the fist sequence [false, true, true, true, false]. -/
def fistSequence : List (List (Deck × Gesture) × ℚ) :=
  [fistFrame false, fistFrame true, fistFrame true, fistFrame true, fistFrame false]

/-- Claim C1: a play/pause event is emitted in a deck's per-frame step iff the
snapshot's fist is true and the stored `previous_fist` is false, and
`previous_fist` is then set to the snapshot's fist; over the fist sequence
[false, true, true, true, false] exactly one play/pause event fires, on the
rising-edge frame. -/
theorem play_pause_rising_edge :
    (∀ (d : Deck) (s : DeckState) (playing : Bool) (g : Gesture) (now : ℚ),
      ((⟨d, ControlAction.playPause⟩ : ControlEvent) ∈ (deckStep d s playing g now).1
        ↔ (g.fist = true ∧ s.previousFist = false))
      ∧ (deckStep d s playing g now).2.1.previousFist = g.fist)
  ∧ runEvents initSys fistSequence
      = [[], [⟨Deck.left, ControlAction.playPause⟩], [], [], []] := by
  refine ⟨fun d s playing g now => ⟨?_, rfl⟩, by decide⟩
  obtain ⟨f, o, p, pos⟩ := g
  obtain ⟨pf, pa, lt⟩ := s
  cases f <;> cases pf <;>
    simp [deckStep, List.mem_append, playPause_not_mem_pinchStep]

/-- After any pinch branch, `pinch_active` equals the frame's pinch value. -/
lemma pinchStep_active (d : Deck) (a : Bool) (t : ℚ) (p : Bool) (now : ℚ) :
    (pinchStep d a t p now).2.1 = p := by
  cases p <;> cases a <;> simp [pinchStep]
  split_ifs <;> rfl

/-- Processing a snapshot for deck `d` leaves `previous_fist` at the
snapshot's fist value. -/
lemma applyDeck_previousFist (st : SysState) (d : Deck) (g : Gesture) (now : ℚ) :
    (deckOf (applyDeck st d g now).2 d).previousFist = g.fist := by
  cases d <;> simp [applyDeck, deckOf, deckStep]

/-- Processing a snapshot for deck `d` leaves `pinch_active` at the
snapshot's pinch value. -/
lemma applyDeck_pinchActive (st : SysState) (d : Deck) (g : Gesture) (now : ℚ) :
    (deckOf (applyDeck st d g now).2 d).pinchActive = g.pinch := by
  cases d <;> simp [applyDeck, deckOf, deckStep, pinchStep_active]

/-- Processing one deck's snapshot does not touch the other deck's state. -/
lemma applyDeck_other (st : SysState) (d2 d : Deck) (g : Gesture) (now : ℚ)
    (h : d2 ≠ d) :
    deckOf (applyDeck st d2 g now).2 d = deckOf st d := by
  cases d2 <;> cases d <;> simp_all [applyDeck, deckOf]

/-- After one frame, a deck's `previous_fist` / `pinch_active` mirror the last
snapshot the frame assigned to it, or carry over when the frame had none. -/
lemma frameStep_deck (gs : List (Deck × Gesture)) (st : SysState) (now : ℚ)
    (d : Deck) :
    (deckOf (frameStep st gs now).2 d).previousFist
      = (match lastEntry d gs with
         | some g => g.fist
         | none => (deckOf st d).previousFist)
  ∧ (deckOf (frameStep st gs now).2 d).pinchActive
      = (match lastEntry d gs with
         | some g => g.pinch
         | none => (deckOf st d).pinchActive) := by
  induction gs generalizing st with
  | nil => simp [frameStep, lastEntry]
  | cons e rest ih =>
    obtain ⟨d2, g⟩ := e
    have h2 := ih (applyDeck st d2 g now).2
    have hfs : (frameStep st ((d2, g) :: rest) now).2
        = (frameStep (applyDeck st d2 g now).2 rest now).2 := by
      simp [frameStep]
    rw [hfs]
    cases hle : lastEntry d rest with
    | some g2 =>
      simp only [lastEntry, hle] at h2 ⊢
      exact h2
    | none =>
      simp only [lastEntry, hle] at h2 ⊢
      by_cases hd : d2 = d
      · subst hd
        simp only [if_pos rfl]
        rw [h2.1, h2.2, applyDeck_previousFist, applyDeck_pinchActive]
        exact ⟨rfl, rfl⟩
      · simp only [if_neg hd]
        rw [h2.1, h2.2, applyDeck_other st d2 d g now hd]
        exact ⟨rfl, rfl⟩

/-- Across a frame list, a deck's carried booleans mirror the most recent
snapshot produced for it, or the starting state when there was none. -/
lemma runState_deck (frames : List (List (Deck × Gesture) × ℚ)) (st : SysState)
    (d : Deck) :
    (deckOf (runState st frames) d).previousFist
      = (match lastDeckSnap d frames with
         | some g => g.fist
         | none => (deckOf st d).previousFist)
  ∧ (deckOf (runState st frames) d).pinchActive
      = (match lastDeckSnap d frames with
         | some g => g.pinch
         | none => (deckOf st d).pinchActive) := by
  induction frames generalizing st with
  | nil => simp [runState, lastDeckSnap]
  | cons fr rest ih =>
    obtain ⟨gs, now⟩ := fr
    have h2 := ih (frameStep st gs now).2
    have hfr := frameStep_deck gs st now d
    cases hls : lastDeckSnap d rest with
    | some g2 =>
      simp only [runState, lastDeckSnap, hls] at h2 ⊢
      exact h2
    | none =>
      simp only [runState, lastDeckSnap, hls] at h2 ⊢
      rw [h2.1, h2.2, hfr.1, hfr.2]
      exact ⟨rfl, rfl⟩

/-- Claim C3: in every state reachable from the all-false initial state by
the per-frame mapping, a deck's `pinch_active` is true iff its most recently
processed snapshot had pinch true, and `previous_fist` equals that snapshot's
fist value — frames assigning nothing to the deck carry its state over. -/
theorem deck_state_invariant (d : Deck)
    (frames : List (List (Deck × Gesture) × ℚ)) :
    ((deckOf (runState initSys frames) d).pinchActive
      = (match lastDeckSnap d frames with
         | some g => g.pinch
         | none => false))
  ∧ ((deckOf (runState initSys frames) d).previousFist
      = (match lastDeckSnap d frames with
         | some g => g.fist
         | none => false)) := by
  have h := runState_deck frames initSys d
  have hinit : deckOf initSys d = ⟨false, false, 0⟩ := by
    cases d <;> rfl
  refine ⟨?_, ?_⟩
  · rw [h.2]
    cases lastDeckSnap d frames <;> simp [hinit]
  · rw [h.1]
    cases lastDeckSnap d frames <;> simp [hinit]

/-! ### Event ordering and deck independence -/

/-- Every event the pinch branch emits belongs to its own deck. -/
lemma pinchStep_deck_mem (d : Deck) (a : Bool) (t : ℚ) (p : Bool) (now : ℚ) :
    ∀ e ∈ (pinchStep d a t p now).1, e.deck = d := by
  unfold pinchStep
  split_ifs <;> intro e he <;> simp_all

/-- Every event a deck's step emits belongs to that deck. -/
lemma deckStep_deck_mem (d : Deck) (s : DeckState) (playing : Bool)
    (g : Gesture) (now : ℚ) :
    ∀ e ∈ (deckStep d s playing g now).1, e.deck = d := by
  intro e he
  simp only [deckStep, List.mem_append] at he
  rcases he with h | h
  · split at h <;> simp_all
  · exact pinchStep_deck_mem d s.pinchActive s.lastPinchTime g.pinch now e h

/-- A block of left-deck events followed by a block of right-deck events is
ordered left-before-right. -/
lemma leftThenRight_append (A B : List ControlEvent)
    (hA : ∀ e ∈ A, e.deck = Deck.left) (hB : ∀ e ∈ B, e.deck = Deck.right) :
    leftThenRight (A ++ B) := by
  unfold leftThenRight
  rw [List.filter_append, List.filter_append,
    List.filter_eq_self.mpr (fun e he => by simp [hA e he]),
    List.filter_eq_nil_iff.mpr (fun e he => by simp [hB e he]),
    List.filter_eq_nil_iff.mpr (fun e he => by simp [hA e he]),
    List.filter_eq_self.mpr (fun e he => by simp [hB e he]),
    List.append_nil, List.nil_append]

/-- Within one deck's step, the play/pause event (if any) precedes any
pinch-nudge event. -/
lemma ppThenNudge_deckStep (d : Deck) (s : DeckState) (playing : Bool)
    (g : Gesture) (now : ℚ) :
    ppThenNudge (deckStep d s playing g now).1 := by
  unfold ppThenNudge deckStep pinchStep
  obtain ⟨f, o, p, pos⟩ := g
  obtain ⟨pf, pa, lt⟩ := s
  cases f <;> cases pf <;> cases p <;> cases pa <;>
    simp [List.filter] <;> split_ifs <;> simp [List.filter]

/-- Claim C4 counterexample: when the frame's gesture dictionary lists the
right deck first (hands tagged "left" then "right", as `detect_gestures`
inserts them), the right-deck play/pause event is emitted before the
left-deck one, so left-deck events do not all precede right-deck events. -/
theorem event_order_left_first_cex :
    (frameStep initSys (detect_gestures [obsTagLeft, obsTagRight]) 0).1
      = [⟨Deck.right, ControlAction.playPause⟩, ⟨Deck.left, ControlAction.playPause⟩]
  ∧ ¬ leftThenRight
      (frameStep initSys (detect_gestures [obsTagLeft, obsTagRight]) 0).1 := by
  constructor <;> decide

/-- Claim C4 as amended: the frame's event sequence is the deterministic
concatenation of per-deck blocks in the order the decks appear in the gesture
dictionary (left-deck events precede right-deck events exactly when
`left_hand` is listed first), and within each deck's block play/pause
precedes any pinch-nudge. -/
theorem event_order_amended (st : SysState) (gl gr : Gesture) (now : ℚ)
    (d : Deck) (s : DeckState) (playing : Bool) (g : Gesture) :
    (frameStep st [(Deck.left, gl), (Deck.right, gr)] now).1
      = (deckStep Deck.left st.leftDeck st.mixxxPlaying gl now).1
        ++ (deckStep Deck.right st.rightDeck st.mixxxPlaying gr now).1
  ∧ leftThenRight (frameStep st [(Deck.left, gl), (Deck.right, gr)] now).1
  ∧ (frameStep st [(Deck.right, gr), (Deck.left, gl)] now).1
      = (deckStep Deck.right st.rightDeck st.mixxxPlaying gr now).1
        ++ (deckStep Deck.left st.leftDeck st.mixxxPlaying gl now).1
  ∧ ppThenNudge (deckStep d s playing g now).1 := by
  have h1 : (frameStep st [(Deck.left, gl), (Deck.right, gr)] now).1
      = (deckStep Deck.left st.leftDeck st.mixxxPlaying gl now).1
        ++ (deckStep Deck.right st.rightDeck st.mixxxPlaying gr now).1 := by
    simp [frameStep, applyDeck, deckOf, deckStep]
  refine ⟨h1, ?_, ?_, ppThenNudge_deckStep d s playing g now⟩
  · rw [h1]
    exact leftThenRight_append _ _
      (deckStep_deck_mem Deck.left st.leftDeck st.mixxxPlaying gl now)
      (deckStep_deck_mem Deck.right st.rightDeck st.mixxxPlaying gr now)
  · simp [frameStep, applyDeck, deckOf, deckStep]

/-! ### Cross-deck effects and the shared playing flag -/

/-- Claim C9 counterexample: processing one deck's fist snapshot changes the
controller's `is_playing` — state that is not that deck's control state and
that the other deck's processing also writes (both conjuncts flip it from the
same initial state). -/
theorem deck_independence_cex :
    (applyDeck initSys Deck.left (classify fistPoints) 0).2.mixxxPlaying
      ≠ initSys.mixxxPlaying
  ∧ (applyDeck initSys Deck.right (classify fistPoints) 0).2.mixxxPlaying
      ≠ initSys.mixxxPlaying := by
  constructor <;> decide

/-- Claim C9 as amended: processing one deck's gestures modifies only that
deck's control state and the controller's shared `is_playing` flag (flipped
exactly on a play/pause trigger); the other deck's control state never
changes, and each action's key symbol is deck-specific. -/
theorem deck_independence_amended (st : SysState) (g : Gesture) (now : ℚ) :
    (applyDeck st Deck.left g now).2.rightDeck = st.rightDeck
  ∧ (applyDeck st Deck.right g now).2.leftDeck = st.leftDeck
  ∧ (applyDeck st Deck.left g now).2.mixxxPlaying
      = (if g.fist && !st.leftDeck.previousFist
         then !st.mixxxPlaying else st.mixxxPlaying)
  ∧ (applyDeck st Deck.right g now).2.mixxxPlaying
      = (if g.fist && !st.rightDeck.previousFist
         then !st.mixxxPlaying else st.mixxxPlaying)
  ∧ (∀ a : ControlAction, eventKey ⟨Deck.left, a⟩ ≠ eventKey ⟨Deck.right, a⟩) := by
  refine ⟨rfl, rfl, ?_, ?_, ?_⟩
  · simp [applyDeck, deckOf, deckStep]
  · simp [applyDeck, deckOf, deckStep]
  · intro a
    cases a <;> decide

/-- Folding play/pause triggers flips `is_playing` once per trigger. -/
lemma foldl_play_pause_parity (l : List (Deck × Bool)) (st : MixxxState) :
    (l.foldl (fun s pr => handle_play_pause s true pr.1 pr.2) st).is_playing
      = xor (decide (l.length % 2 = 1)) st.is_playing := by
  induction l generalizing st with
  | nil => simp
  | cons a rest ih =>
    rw [List.foldl_cons, ih]
    have hflip : (handle_play_pause st true a.1 a.2).is_playing
        = !st.is_playing := by
      cases h : a.2 <;> simp [handle_play_pause, send_key]
    rw [hflip]
    by_cases h : rest.length % 2 = 1
    · have h2 : ¬((rest.length + 1) % 2 = 1) := by omega
      simp [h, h2]
    · have h2 : (rest.length + 1) % 2 = 1 := by omega
      simp [h, h2]

/-- Claim C10: the controller keeps one `is_playing` flag for both decks;
every trigger from either deck flips it regardless of the key-injection
outcome (`send_key` swallows every exception), so `get_status`'s `playing`
reports only the parity of the total trigger count from both decks. -/
theorem shared_is_playing_flag (triggers : List (Deck × Bool)) :
    (get_status (triggers.foldl
        (fun s pr => handle_play_pause s true pr.1 pr.2) initController)).playing
      = decide (triggers.length % 2 = 1)
  ∧ (∀ (st : MixxxState) (d : Deck) (ok : Bool),
      (handle_play_pause st true d ok).is_playing = !st.is_playing)
  ∧ (∀ (st : MixxxState) (d : Deck) (ok : Bool),
      handle_play_pause st true d ok = handle_play_pause st true d (!ok)) := by
  refine ⟨?_, ?_, ?_⟩
  · show (triggers.foldl
        (fun s pr => handle_play_pause s true pr.1 pr.2) initController).is_playing = _
    rw [foldl_play_pause_parity]
    simp [initController]
  · intro st d ok
    cases ok <;> simp [handle_play_pause, send_key]
  · intro st d ok
    cases ok <;> rfl
